import Mathlib

/-!
Shallow embedding of `YamlDotNet.Core::ScalarEvent` (src/YamlDotNet.Core/ScalarEvent.cpp).

A `ScalarEvent` is either *bound* (wraps a raw parsed `yaml_event_t` record,
`nativeEvent = some _`, lazy decode with caching) or *detached*
(`nativeEvent = none`, fields supplied by a constructor).  Managed `String^`
references are modelled as `Option String` (`none` = `nullptr`), native byte
buffers (`yaml_char_t*`) as `Option (List Nat)` (`none` = `NULL`).

Stateful property getters are modelled as state transformers
`ScalarEvent → result × ScalarEvent × Nat`, the `Nat` counting how many times
the external text codec (`StringConverter::Convert`) was invoked, so that the
lazy-materialization invariant is expressible.  A null-pointer dereference
(`value->Length` on a null managed reference) is modelled by an `Option`
result being `none`.
-/

set_option autoImplicit false

namespace YamlDotNetCore

/-- Scalar presentation styles, mirroring the managed `ScalarStyle` enum
(which mirrors libyaml's `yaml_scalar_style_t`: `YAML_ANY_SCALAR_STYLE`,
plain, single-quoted, double-quoted, literal, folded). -/
inductive ScalarStyle where
  | Any
  | Plain
  | SingleQuoted
  | DoubleQuoted
  | Literal
  | Folded
deriving DecidableEq, Repr

/-- The `.NET`-style textual name of a `ScalarStyle` member, as produced by
formatting the enum value. -/
def styleName : ScalarStyle → String
  | ScalarStyle.Any => "Any"
  | ScalarStyle.Plain => "Plain"
  | ScalarStyle.SingleQuoted => "SingleQuoted"
  | ScalarStyle.DoubleQuoted => "DoubleQuoted"
  | ScalarStyle.Literal => "Literal"
  | ScalarStyle.Folded => "Folded"

/-- The scalar payload of a raw parsed record (`yaml_event_t.data.scalar`):
byte buffers for anchor, tag and value (anchor and tag may be `NULL`), the
authoritative length field, the style code (already mapped to the enum) and
the two implicit-resolution flag integers. -/
structure RawScalar where
  anchor : Option (List Nat)
  tag : Option (List Nat)
  value : List Nat
  length : Int
  style : ScalarStyle
  plain_implicit : Int
  quoted_implicit : Int
deriving DecidableEq, Repr

/-- Modelled from the spec: the text codec (`StringConverter`) is an external
collaborator whose source is not part of this repository; its byte→text and
text→byte primitives are abstract parameters. -/
structure Codec where
  decodeBytes : List Nat → String
  encodeText : String → List Nat

/-- Modelled from the spec: `StringConverter::Convert(raw bytes) → text`.
A `NULL` byte buffer (absent anchor/tag) decodes to an absent string,
matching the data model ("optional text ... absent if none"); a non-null
buffer decodes to present text. -/
def convertToText (c : Codec) : Option (List Nat) → Option String
  | none => none
  | some b => some (c.decodeBytes b)

/-- Modelled from the spec: `StringConverter::Convert(text) → newly allocated
raw bytes suitable for the wire initializer, or null for absent/empty
input`. -/
def convertToBytes (c : Codec) : Option String → Option (List Nat)
  | none => none
  | some s => if s = "" then none else some (c.encodeText s)

/-- The managed `ScalarEvent` object state: the optional raw record pointer
(inherited from `YamlEvent`), the three nullable text fields (cache slots
for a bound object, supplied values for a detached one), the style and the
two implicit flags. -/
structure ScalarEvent where
  nativeEvent : Option RawScalar
  anchor : Option String
  tag : Option String
  value : Option String
  style : ScalarStyle
  isPlainImplicit : Bool
  isQuotedImplicit : Bool
deriving DecidableEq, Repr

namespace ScalarEvent

/-- Read-path constructor `ScalarEvent(const yaml_event_t*)`: captures style
and the two implicit flags (`!= 0`), leaves anchor/tag/value undecoded. -/
def fromNative (r : RawScalar) : ScalarEvent :=
  { nativeEvent := some r
    anchor := none
    tag := none
    value := none
    style := r.style
    isPlainImplicit := r.plain_implicit != 0
    isQuotedImplicit := r.quoted_implicit != 0 }

/-- Write-path constructor `ScalarEvent(String^ _value)`. -/
def ofValue (v : Option String) : ScalarEvent :=
  { nativeEvent := none, anchor := none, tag := none, value := v
    style := ScalarStyle.Plain, isPlainImplicit := true, isQuotedImplicit := true }

/-- Write-path constructor `ScalarEvent(String^ _value, String^ _tag)`. -/
def ofValueTag (v t : Option String) : ScalarEvent :=
  { nativeEvent := none, anchor := none, tag := t, value := v
    style := ScalarStyle.Plain, isPlainImplicit := true, isQuotedImplicit := true }

/-- Write-path constructor `ScalarEvent(String^ _value, String^ _tag, String^ _anchor)`. -/
def ofValueTagAnchor (v t a : Option String) : ScalarEvent :=
  { nativeEvent := none, anchor := a, tag := t, value := v
    style := ScalarStyle.Plain, isPlainImplicit := true, isQuotedImplicit := true }

/-- Write-path constructor `ScalarEvent(String^, String^, String^, ScalarStyle)`. -/
def ofValueTagAnchorStyle (v t a : Option String) (st : ScalarStyle) : ScalarEvent :=
  { nativeEvent := none, anchor := a, tag := t, value := v
    style := st, isPlainImplicit := true, isQuotedImplicit := true }

/-- Write-path constructor
`ScalarEvent(String^, String^, String^, ScalarStyle, bool, bool)` (full control). -/
def ofAll (v t a : Option String) (st : ScalarStyle) (p q : Bool) : ScalarEvent :=
  { nativeEvent := none, anchor := a, tag := t, value := v
    style := st, isPlainImplicit := p, isQuotedImplicit := q }

/-- `ScalarEvent::Anchor::get`: if the cache is null and a raw record is
bound, decode the record's anchor bytes into the cache; return the cache.
Result, updated object, number of codec invocations. -/
def anchorGet (c : Codec) (ev : ScalarEvent) : Option String × ScalarEvent × Nat :=
  match ev.anchor with
  | some a => (some a, ev, 0)
  | none =>
    match ev.nativeEvent with
    | some r =>
      let a := convertToText c r.anchor
      (a, { ev with anchor := a }, 1)
    | none => (none, ev, 0)

/-- `ScalarEvent::Tag::get`: same lazy pattern over the record's tag bytes. -/
def tagGet (c : Codec) (ev : ScalarEvent) : Option String × ScalarEvent × Nat :=
  match ev.tag with
  | some t => (some t, ev, 0)
  | none =>
    match ev.nativeEvent with
    | some r =>
      let t := convertToText c r.tag
      (t, { ev with tag := t }, 1)
    | none => (none, ev, 0)

/-- `ScalarEvent::Value::get`: same lazy pattern over the record's value
bytes (the raw value buffer is never `NULL`). -/
def valueGet (c : Codec) (ev : ScalarEvent) : Option String × ScalarEvent × Nat :=
  match ev.value with
  | some v => (some v, ev, 0)
  | none =>
    match ev.nativeEvent with
    | some r =>
      let v := convertToText c (some r.value)
      (v, { ev with value := v }, 1)
    | none => (none, ev, 0)

/-- `ScalarEvent::Length::get`: a bound object returns the raw record's
length field directly (no cache); a detached object dereferences
`value->Length` — `none` models the null-pointer dereference when `value`
is absent. -/
def lengthGet (ev : ScalarEvent) : Option Int :=
  match ev.nativeEvent with
  | some r => some r.length
  | none => ev.value.map (fun v => (v.length : Int))

/-- `ScalarEvent::Style::get`: plain field read. -/
def styleGet (ev : ScalarEvent) : ScalarStyle := ev.style

/-- `ScalarEvent::IsPlainImplicit::get`: plain field read. -/
def isPlainImplicitGet (ev : ScalarEvent) : Bool := ev.isPlainImplicit

/-- `ScalarEvent::IsQuotedImplicit::get`: plain field read. -/
def isQuotedImplicitGet (ev : ScalarEvent) : Bool := ev.isQuotedImplicit

/-- The three property reads `Anchor`, `Tag`, `Value` in sequence, threading
the object state: yields the three results and the final state. -/
def reads3 (c : Codec) (ev : ScalarEvent) :
    (Option String × Option String × Option String) × ScalarEvent :=
  let r1 := ev.anchorGet c
  let r2 := r1.2.1.tagGet c
  let r3 := r2.2.1.valueGet c
  ((r1.1, r2.1, r3.1), r3.2.1)

/-- A null managed string renders as the empty string in `String::Format`. -/
def fmtArg : Option String → String
  | none => ""
  | some s => s

/-- `ScalarEvent::ToString()`: reads `Anchor`, `Tag`, `Value`, `Length`,
`IsPlainImplicit` (for both implicit labels) and `Style`, formatting them
with the invariant culture.  `none` models the null dereference inside the
`Length` read.  Returns the string and the post-read object state. -/
def toStringGet (c : Codec) (ev : ScalarEvent) : Option (String × ScalarEvent) :=
  let rd := ev.reads3 c
  match rd.2.lengthGet with
  | none => none
  | some len =>
    some ("ScalarEvent " ++ fmtArg rd.1.1 ++ " " ++ fmtArg rd.1.2.1 ++ " "
        ++ fmtArg rd.1.2.2 ++ " " ++ toString len ++ " "
        ++ (if rd.2.isPlainImplicit then "plain_implicit" else "plain_explicit") ++ " "
        ++ (if rd.2.isPlainImplicit then "quoted_implicit" else "quoted_explicit") ++ " "
        ++ styleName rd.2.style,
      rd.2)

/-- The argument tuple handed to the external wire-record initializer
`yaml_scalar_event_initialize` (minus the output record slot). -/
structure InitCall where
  anchorBuf : Option (List Nat)
  tagBuf : Option (List Nat)
  valueBuf : Option (List Nat)
  length : Int
  plain_implicit : Int
  quoted_implicit : Int
  style : ScalarStyle
deriving DecidableEq, Repr

/-- Observable outcome of `CreateEvent`: the initializer call made, the list
of byte buffers released (`delete[]`, in program order), whether
`YamlException` was thrown, and the object state afterwards. -/
structure CreateOutcome where
  call : InitCall
  freed : List (List Nat)
  threw : Bool
  finalState : ScalarEvent
deriving DecidableEq, Repr

/-- `ScalarEvent::CreateEvent(yaml_event_t*)`: encode `Anchor`, `Tag`,
`Value` to byte buffers, invoke the initializer (abstract parameter `init`;
result 1 = success) with the buffers, `Value->Length`, the implicit flags
coerced to 1/0 and `YAML_ANY_SCALAR_STYLE`, release every non-null buffer,
and throw `YamlException` when the result is not 1.  `none` models the null
dereference at `Value->Length`. -/
def createEvent (c : Codec) (init : InitCall → Int) (ev : ScalarEvent) :
    Option CreateOutcome :=
  let rd := ev.reads3 c
  let anchorBuffer := convertToBytes c rd.1.1
  let tagBuffer := convertToBytes c rd.1.2.1
  let valueBuffer := convertToBytes c rd.1.2.2
  match (rd.2.valueGet c).1 with
  | none => none
  | some vs =>
    let call : InitCall :=
      { anchorBuf := anchorBuffer
        tagBuf := tagBuffer
        valueBuf := valueBuffer
        length := (vs.length : Int)
        plain_implicit := if rd.2.isPlainImplicit then 1 else 0
        quoted_implicit := if rd.2.isQuotedImplicit then 1 else 0
        style := ScalarStyle.Any }
    let result := init call
    some { call := call
           freed := valueBuffer.toList ++ tagBuffer.toList ++ anchorBuffer.toList
           threw := result != 1
           finalState := (rd.2.valueGet c).2.1 }

/-- A read-path property access, for stating frame properties over arbitrary
access sequences. -/
inductive Acc where
  | anchor
  | tag
  | value
deriving DecidableEq, Repr

/-- Apply a sequence of lazy property reads to the object, keeping only the
final state. -/
def applyReads (c : Codec) : List Acc → ScalarEvent → ScalarEvent
  | [], ev => ev
  | Acc.anchor :: rs, ev => applyReads c rs (ev.anchorGet c).2.1
  | Acc.tag :: rs, ev => applyReads c rs (ev.tagGet c).2.1
  | Acc.value :: rs, ev => applyReads c rs (ev.valueGet c).2.1

/-- A concrete codec for evaluating the model: one byte per character. -/
def codec0 : Codec :=
  { decodeBytes := fun b => String.mk (b.map Char.ofNat)
    encodeText := fun s => s.data.map Char.toNat }

/-- A concrete raw parsed record with absent anchor and tag and a length
field (5) that differs from the decoded character count (2). -/
def raw0 : RawScalar :=
  { anchor := none, tag := none, value := [104, 105], length := 5
    style := ScalarStyle.Plain, plain_implicit := 1, quoted_implicit := 0 }

/-- A wire initializer stub that always reports success. -/
def init1 : InitCall → Int := fun _ => 1

/-- A wire initializer stub that always reports failure. -/
def init0 : InitCall → Int := fun _ => 0

/-- A concrete detached event with all six fields supplied. -/
def ev1 : ScalarEvent :=
  ofAll (some "x") (some "!") (some "a") ScalarStyle.DoubleQuoted false true

/-- The outcome of `ev1.createEvent codec0 init1` (successful initializer). -/
def out1 : CreateOutcome :=
  { call := { anchorBuf := some [97], tagBuf := some [33], valueBuf := some [120]
              length := 1, plain_implicit := 0, quoted_implicit := 1
              style := ScalarStyle.Any }
    freed := [[120], [33], [97]], threw := false, finalState := ev1 }

/-- The outcome of `ev1.createEvent codec0 init0` (failing initializer). -/
def outF : CreateOutcome :=
  { call := { anchorBuf := some [97], tagBuf := some [33], valueBuf := some [120]
              length := 1, plain_implicit := 0, quoted_implicit := 1
              style := ScalarStyle.Any }
    freed := [[120], [33], [97]], threw := true, finalState := ev1 }

/-- `Anchor::get` either returns the cache unchanged or fills exactly the
anchor cache with its own result. -/
theorem anchorGet_state (c : Codec) (ev : ScalarEvent) :
    (ev.anchorGet c).2.1 = { ev with anchor := (ev.anchorGet c).1 } := by
  obtain ⟨ne, an, tg, vl, st, p, q⟩ := ev
  cases an <;> cases ne <;> rfl

/-- `Tag::get` either returns the cache unchanged or fills exactly the tag
cache with its own result. -/
theorem tagGet_state (c : Codec) (ev : ScalarEvent) :
    (ev.tagGet c).2.1 = { ev with tag := (ev.tagGet c).1 } := by
  obtain ⟨ne, an, tg, vl, st, p, q⟩ := ev
  cases tg <;> cases ne <;> rfl

/-- `Value::get` either returns the cache unchanged or fills exactly the
value cache with its own result. -/
theorem valueGet_state (c : Codec) (ev : ScalarEvent) :
    (ev.valueGet c).2.1 = { ev with value := (ev.valueGet c).1 } := by
  obtain ⟨ne, an, tg, vl, st, p, q⟩ := ev
  cases vl <;> cases ne <;> rfl

/-- Reading `Value` twice in a row: the second read returns the first read's
result and leaves the state unchanged, with no further decode. -/
theorem valueGet_idem (c : Codec) (ev : ScalarEvent) :
    ((ev.valueGet c).2.1).valueGet c = ((ev.valueGet c).1, (ev.valueGet c).2.1, 0) := by
  obtain ⟨ne, an, tg, vl, st, p, q⟩ := ev
  cases vl <;> cases ne <;> rfl

/-- The `Anchor`/`Tag`/`Value` read sequence preserves the raw-record
pointer. -/
theorem reads3_native (c : Codec) (ev : ScalarEvent) :
    (ev.reads3 c).2.nativeEvent = ev.nativeEvent := by
  obtain ⟨ne, an, tg, vl, st, p, q⟩ := ev
  cases an <;> cases tg <;> cases vl <;> cases ne <;> rfl

/-- The `Anchor`/`Tag`/`Value` read sequence preserves the style field. -/
theorem reads3_style (c : Codec) (ev : ScalarEvent) :
    (ev.reads3 c).2.style = ev.style := by
  obtain ⟨ne, an, tg, vl, st, p, q⟩ := ev
  cases an <;> cases tg <;> cases vl <;> cases ne <;> rfl

/-- The `Anchor`/`Tag`/`Value` read sequence preserves `isPlainImplicit`. -/
theorem reads3_plain (c : Codec) (ev : ScalarEvent) :
    (ev.reads3 c).2.isPlainImplicit = ev.isPlainImplicit := by
  obtain ⟨ne, an, tg, vl, st, p, q⟩ := ev
  cases an <;> cases tg <;> cases vl <;> cases ne <;> rfl

/-- The `Anchor`/`Tag`/`Value` read sequence preserves `isQuotedImplicit`. -/
theorem reads3_quoted (c : Codec) (ev : ScalarEvent) :
    (ev.reads3 c).2.isQuotedImplicit = ev.isQuotedImplicit := by
  obtain ⟨ne, an, tg, vl, st, p, q⟩ := ev
  cases an <;> cases tg <;> cases vl <;> cases ne <;> rfl

/-- Reading `Value` on the state left by the read sequence is a pure cache
hit returning the sequence's value result. -/
theorem reads3_valueGet (c : Codec) (ev : ScalarEvent) :
    ((ev.reads3 c).2).valueGet c = ((ev.reads3 c).1.2.2, (ev.reads3 c).2, 0) := by
  obtain ⟨ne, an, tg, vl, st, p, q⟩ := ev
  cases an <;> cases tg <;> cases vl <;> cases ne <;> rfl

/-- Characterization of `CreateEvent` in terms of the three-property read
sequence: the initializer is called with the encoded read results,
`Value`'s character length, the 1/0 flags and the `Any` style; the value,
tag and anchor buffers are then released in that order; the exception
corresponds to a non-1 initializer result. -/
theorem createEvent_spec (c : Codec) (init : InitCall → Int) (ev : ScalarEvent) :
    ev.createEvent c init =
      match (ev.reads3 c).1.2.2 with
      | none => none
      | some vs =>
        let call : InitCall :=
          { anchorBuf := convertToBytes c (ev.reads3 c).1.1
            tagBuf := convertToBytes c (ev.reads3 c).1.2.1
            valueBuf := convertToBytes c (ev.reads3 c).1.2.2
            length := (vs.length : Int)
            plain_implicit := if ev.isPlainImplicit then 1 else 0
            quoted_implicit := if ev.isQuotedImplicit then 1 else 0
            style := ScalarStyle.Any }
        some { call := call
               freed := (convertToBytes c (ev.reads3 c).1.2.2).toList
                   ++ (convertToBytes c (ev.reads3 c).1.2.1).toList
                   ++ (convertToBytes c (ev.reads3 c).1.1).toList
               threw := init call != 1
               finalState := (ev.reads3 c).2 } := by
  obtain ⟨ne, an, tg, vl, st, p, q⟩ := ev
  cases an <;> cases tg <;> cases vl <;> cases ne <;> rfl

/-- Applying any sequence of lazy reads preserves the raw-record pointer. -/
theorem applyReads_native (c : Codec) (rs : List Acc) (ev : ScalarEvent) :
    (ScalarEvent.applyReads c rs ev).nativeEvent = ev.nativeEvent := by
  induction rs generalizing ev with
  | nil => rfl
  | cons r rs ih =>
    cases r <;>
      simp [ScalarEvent.applyReads, ih, anchorGet_state, tagGet_state, valueGet_state]

/-- Lazy reads on a detached object are pure: they never change the state. -/
theorem applyReads_detached (c : Codec) (rs : List Acc) (ev : ScalarEvent)
    (h : ev.nativeEvent = none) : ScalarEvent.applyReads c rs ev = ev := by
  induction rs generalizing ev with
  | nil => rfl
  | cons r rs ih =>
    obtain ⟨ne, an, tg, vl, st, p, q⟩ := ev
    simp only [ScalarEvent.nativeEvent] at h
    subst h
    cases r <;> cases an <;> cases tg <;> cases vl <;>
      simpa [ScalarEvent.applyReads, ScalarEvent.anchorGet, ScalarEvent.tagGet,
        ScalarEvent.valueGet] using ih _ rfl

/-- `ToString` leaves the object in exactly the state produced by the
`Anchor`/`Tag`/`Value` read sequence. -/
theorem toStringGet_state (c : Codec) (ev : ScalarEvent) (s : String) (ev' : ScalarEvent)
    (h : ev.toStringGet c = some (s, ev')) : ev' = (ev.reads3 c).2 := by
  simp only [toStringGet] at h
  rcases hL : (ev.reads3 c).2.lengthGet with _ | l <;> simp [hL] at h
  exact h.2.symm

/-- C5: each write-path constructor that omits fields applies the defaults —
tag and anchor absent when not supplied, style `Plain` when not supplied,
both implicit flags `true` when not supplied — and passes the supplied
fields through; in particular a value-only construction reads back as tag
absent, anchor absent, style `Plain`, both implicit flags `true`. -/
theorem ctor_defaults (c : Codec) (v t a : Option String) (st : ScalarStyle) :
    (((ofValue v).valueGet c).1 = v ∧ ((ofValue v).tagGet c).1 = none ∧
      ((ofValue v).anchorGet c).1 = none ∧ (ofValue v).styleGet = ScalarStyle.Plain ∧
      (ofValue v).isPlainImplicitGet = true ∧ (ofValue v).isQuotedImplicitGet = true) ∧
    (((ofValueTag v t).valueGet c).1 = v ∧ ((ofValueTag v t).tagGet c).1 = t ∧
      ((ofValueTag v t).anchorGet c).1 = none ∧
      (ofValueTag v t).styleGet = ScalarStyle.Plain ∧
      (ofValueTag v t).isPlainImplicitGet = true ∧
      (ofValueTag v t).isQuotedImplicitGet = true) ∧
    (((ofValueTagAnchor v t a).valueGet c).1 = v ∧
      ((ofValueTagAnchor v t a).tagGet c).1 = t ∧
      ((ofValueTagAnchor v t a).anchorGet c).1 = a ∧
      (ofValueTagAnchor v t a).styleGet = ScalarStyle.Plain ∧
      (ofValueTagAnchor v t a).isPlainImplicitGet = true ∧
      (ofValueTagAnchor v t a).isQuotedImplicitGet = true) ∧
    (((ofValueTagAnchorStyle v t a st).valueGet c).1 = v ∧
      ((ofValueTagAnchorStyle v t a st).tagGet c).1 = t ∧
      ((ofValueTagAnchorStyle v t a st).anchorGet c).1 = a ∧
      (ofValueTagAnchorStyle v t a st).styleGet = st ∧
      (ofValueTagAnchorStyle v t a st).isPlainImplicitGet = true ∧
      (ofValueTagAnchorStyle v t a st).isQuotedImplicitGet = true) := by
  cases v <;> cases t <;> cases a <;>
    exact ⟨⟨rfl, rfl, rfl, rfl, rfl, rfl⟩, ⟨rfl, rfl, rfl, rfl, rfl, rfl⟩,
      ⟨rfl, rfl, rfl, rfl, rfl, rfl⟩, ⟨rfl, rfl, rfl, rfl, rfl, rfl⟩⟩

/-- C6: constructing a detached event with the six-argument constructor and
reading every accessor returns exactly the six supplied values. -/
theorem ofAll_roundtrip (c : Codec) (v t a : Option String) (st : ScalarStyle) (p q : Bool) :
    ((ofAll v t a st p q).valueGet c).1 = v ∧
    ((ofAll v t a st p q).tagGet c).1 = t ∧
    ((ofAll v t a st p q).anchorGet c).1 = a ∧
    (ofAll v t a st p q).styleGet = st ∧
    (ofAll v t a st p q).isPlainImplicitGet = p ∧
    (ofAll v t a st p q).isQuotedImplicitGet = q := by
  cases v <;> cases t <;> cases a <;> exact ⟨rfl, rfl, rfl, rfl, rfl, rfl⟩

/-- C2 counterexample: on a bound event whose raw anchor is absent, reading
`Anchor` twice invokes the byte-to-text decode twice, not exactly once —
the null result is never distinguishable from "not yet decoded", so the
cache never fills. -/
theorem anchor_decode_not_once :
    ((((fromNative raw0).anchorGet codec0).2.2
        + ((((fromNative raw0).anchorGet codec0).2.1).anchorGet codec0).2.2) = 2) ∧
    ¬ ((((fromNative raw0).anchorGet codec0).2.2
        + ((((fromNative raw0).anchorGet codec0).2.1).anchorGet codec0).2.2) = 1) := by
  decide

/-- C2 (amended): on a bound event, `value` is decoded exactly once and the
second read is a cache hit returning the same text; a present anchor or tag
is likewise decoded exactly once and cached; an absent anchor or tag
invokes the decode again on every read, always returning the absent
result. -/
theorem lazy_decode_cache (c : Codec) (raw : RawScalar) :
    ((fromNative raw).valueGet c).2.2 = 1 ∧
    ((((fromNative raw).valueGet c).2.1).valueGet c).2.2 = 0 ∧
    ((((fromNative raw).valueGet c).2.1).valueGet c).1 = ((fromNative raw).valueGet c).1 ∧
    ((fromNative raw).anchorGet c).2.2 = 1 ∧
    ((((fromNative raw).anchorGet c).2.1).anchorGet c).2.2
      = (if raw.anchor.isSome then 0 else 1) ∧
    ((((fromNative raw).anchorGet c).2.1).anchorGet c).1 = convertToText c raw.anchor ∧
    ((fromNative raw).tagGet c).2.2 = 1 ∧
    ((((fromNative raw).tagGet c).2.1).tagGet c).2.2
      = (if raw.tag.isSome then 0 else 1) ∧
    ((((fromNative raw).tagGet c).2.1).tagGet c).1 = convertToText c raw.tag := by
  obtain ⟨ra, rt, rv, rl, rs, rp, rq⟩ := raw
  cases ra <;> cases rt <;> exact ⟨rfl, rfl, rfl, rfl, rfl, rfl, rfl, rfl, rfl⟩

/-- C3: on a bound event the `Length` accessor returns the raw record's
length field after any sequence of lazy reads (it is never cached, and is
independent of the decoded value text); on a detached event it returns the
character count of the supplied value. -/
theorem lengthGet_authority (c : Codec) (raw : RawScalar) (rs rs2 : List Acc)
    (v : String) (t a : Option String) (st : ScalarStyle) (p q : Bool) :
    (applyReads c rs (fromNative raw)).lengthGet = some raw.length ∧
    (applyReads c rs2 (ofAll (some v) t a st p q)).lengthGet = some ((v.length : Int)) := by
  constructor
  · have h := applyReads_native c rs (fromNative raw)
    rw [show (fromNative raw).nativeEvent = some raw from rfl] at h
    simp [lengthGet, h]
  · rw [applyReads_detached c rs2 _ rfl]
    rfl

/-- C7 counterexample: the `Length` accessor is not total — on the detached
event constructed as `ScalarEvent(nullptr)` it dereferences the null value
reference (`value->Length`), modelled as a `none` result. -/
theorem lengthGet_not_total : ¬ (((ofValue none).lengthGet).isSome = true) := by
  decide

/-- C7 (amended): every read-path accessor other than `Length` is total, and
an absent anchor or tag decodes to an absent result rather than an error;
`Length` itself is total exactly when the event is bound or its value is
present — a detached event with an absent value null-dereferences. -/
theorem accessor_totality (c : Codec) (ev : ScalarEvent) (raw : RawScalar) :
    ((ev.lengthGet).isSome ↔ (ev.nativeEvent.isSome ∨ ev.value.isSome)) ∧
    ((fromNative { raw with anchor := none }).anchorGet c).1 = none ∧
    ((fromNative { raw with tag := none }).tagGet c).1 = none := by
  refine ⟨?_, rfl, rfl⟩
  obtain ⟨ne, an, tg, vl, st, p, q⟩ := ev
  cases ne <;> cases vl <;> simp [lengthGet]

/-- C1: `CreateEvent` invokes the wire initializer with the encoded anchor,
tag and value buffers, the character length of `Value`, the two implicit
flags coerced to 1/0, and a style selector fixed to
`YAML_ANY_SCALAR_STYLE` — for every event, hence regardless of the value
stored in the object's `Style` field. -/
theorem createEvent_initializer_args (c : Codec) (init : InitCall → Int)
    (ev : ScalarEvent) (out : CreateOutcome)
    (h : ev.createEvent c init = some out) :
    out.call.style = ScalarStyle.Any ∧
    out.call.anchorBuf = convertToBytes c (ev.reads3 c).1.1 ∧
    out.call.tagBuf = convertToBytes c (ev.reads3 c).1.2.1 ∧
    out.call.valueBuf = convertToBytes c (ev.reads3 c).1.2.2 ∧
    (∃ vs, (ev.reads3 c).1.2.2 = some vs ∧ out.call.length = (vs.length : Int)) ∧
    out.call.plain_implicit = (if ev.isPlainImplicitGet then 1 else 0) ∧
    out.call.quoted_implicit = (if ev.isQuotedImplicitGet then 1 else 0) := by
  rw [createEvent_spec] at h
  rcases hv : (ev.reads3 c).1.2.2 with _ | vs
  · simp [hv] at h
  · simp only [hv, Option.some.injEq] at h
    subst h
    exact ⟨rfl, rfl, rfl, rfl, ⟨vs, rfl, rfl⟩, rfl, rfl⟩

/-- C1 witness: a concrete successful `CreateEvent` call passes the `Any`
style selector. -/
theorem createEvent_initializer_args_inst : out1.call.style = ScalarStyle.Any := by
  obtain ⟨h1, -⟩ := createEvent_initializer_args codec0 init1 ev1 out1 (by decide)
  exact h1

/-- C4: on every completed `CreateEvent`, the released buffers are exactly
the non-null encoded anchor, tag and value buffers handed to the
initializer (released whether it succeeds or fails), and `YamlException`
is thrown if and only if the initializer's result is not 1. -/
theorem createEvent_release_and_error (c : Codec) (init : InitCall → Int)
    (ev : ScalarEvent) (out : CreateOutcome)
    (h : ev.createEvent c init = some out) :
    out.freed = out.call.valueBuf.toList ++ out.call.tagBuf.toList
      ++ out.call.anchorBuf.toList ∧
    (out.threw = true ↔ init out.call ≠ 1) := by
  rw [createEvent_spec] at h
  rcases hv : (ev.reads3 c).1.2.2 with _ | vs
  · simp [hv] at h
  · simp only [hv, Option.some.injEq] at h
    subst h
    exact ⟨rfl, bne_iff_ne⟩

/-- C4 witness: a concrete failing `CreateEvent` call still releases all
three buffers and throws. -/
theorem createEvent_release_and_error_inst :
    outF.freed = outF.call.valueBuf.toList ++ outF.call.tagBuf.toList
      ++ outF.call.anchorBuf.toList ∧
    (outF.threw = true ↔ init0 outF.call ≠ 1) :=
  createEvent_release_and_error codec0 init0 ev1 outF (by decide)

/-- C8: whenever `ToString` completes it returns the deterministic string
listing the type name, anchor, tag, value, length, a label chosen by
`isPlainImplicit`, a second label chosen by the same `isPlainImplicit`
flag (not by `isQuotedImplicit`), and the style. -/
theorem toStringGet_format (c : Codec) (ev : ScalarEvent) (s : String)
    (ev' : ScalarEvent) (len : Int)
    (h : ev.toStringGet c = some (s, ev')) (hl : ev'.lengthGet = some len) :
    s = "ScalarEvent " ++ fmtArg (ev.reads3 c).1.1 ++ " " ++ fmtArg (ev.reads3 c).1.2.1
        ++ " " ++ fmtArg (ev.reads3 c).1.2.2 ++ " " ++ toString len ++ " "
        ++ (if ev.isPlainImplicitGet then "plain_implicit" else "plain_explicit") ++ " "
        ++ (if ev.isPlainImplicitGet then "quoted_implicit" else "quoted_explicit") ++ " "
        ++ styleName ev.styleGet ∧
      ev' = (ev.reads3 c).2 := by
  simp only [toStringGet] at h
  rcases hL : (ev.reads3 c).2.lengthGet with _ | l <;> simp only [hL] at h
  · exact absurd h (by simp)
  · rw [Option.some.injEq, Prod.mk.injEq] at h
    obtain ⟨hs, hev⟩ := h
    subst hev
    rw [hL] at hl
    obtain rfl := Option.some.inj hl
    constructor
    · simp only [isPlainImplicitGet, styleGet]
      rw [← hs, reads3_plain, reads3_style]
    · rfl

/-- C8 witness: the concrete rendering of `ev1`, with both implicit labels
driven by `isPlainImplicit = false`. -/
theorem toStringGet_format_inst :
    ("ScalarEvent a ! x 1 plain_explicit quoted_explicit DoubleQuoted" : String)
      = "ScalarEvent " ++ fmtArg (ev1.reads3 codec0).1.1 ++ " "
        ++ fmtArg (ev1.reads3 codec0).1.2.1 ++ " " ++ fmtArg (ev1.reads3 codec0).1.2.2
        ++ " " ++ toString (1 : Int) ++ " "
        ++ (if ev1.isPlainImplicitGet then "plain_implicit" else "plain_explicit") ++ " "
        ++ (if ev1.isPlainImplicitGet then "quoted_implicit" else "quoted_explicit") ++ " "
        ++ styleName ev1.styleGet ∧
      ev1 = (ev1.reads3 codec0).2 :=
  toStringGet_format codec0 ev1
    "ScalarEvent a ! x 1 plain_explicit quoted_explicit DoubleQuoted" ev1 1
    (by decide) (by decide)

/-- C9: a detached event dereferences its stored value in `Length` and
`CreateEvent` with no null guard: each completes without the null
dereference exactly when the constructor-supplied value is present, and
under that precondition the dereference is safe on every call. -/
theorem detached_value_deref (c : Codec) (init : InitCall → Int) (ev : ScalarEvent)
    (h : ev.nativeEvent = none) :
    ((ev.lengthGet).isSome ↔ ev.value.isSome) ∧
    ((ev.createEvent c init).isSome ↔ ev.value.isSome) := by
  obtain ⟨ne, an, tg, vl, st, p, q⟩ := ev
  cases ne with
  | some r => exact absurd h (by simp)
  | none =>
    cases an <;> cases tg <;> cases vl <;>
      simp [lengthGet, createEvent, reads3, anchorGet, tagGet, valueGet,
        convertToText, convertToBytes]

/-- C9 witness: a detached event with a present value completes both
`Length` and `CreateEvent`. -/
theorem detached_value_deref_inst :
    (((ofValue (some "hi")).lengthGet).isSome ↔ (ofValue (some "hi")).value.isSome) ∧
    (((ofValue (some "hi")).createEvent codec0 init1).isSome
      ↔ (ofValue (some "hi")).value.isSome) :=
  detached_value_deref codec0 init1 (ofValue (some "hi")) rfl

/-- C10: each lazy accessor mutates at most its own cache field — the
post-read state is the pre-read state with only that cache set to the read
result — and `ToString` (like `Length`, which is a pure read) never changes
the style, the implicit flags or the raw-record pointer. -/
theorem accessor_frame (c : Codec) (ev : ScalarEvent) (s : String) (ev' : ScalarEvent)
    (h : ev.toStringGet c = some (s, ev')) :
    (ev.anchorGet c).2.1 = { ev with anchor := (ev.anchorGet c).1 } ∧
    (ev.tagGet c).2.1 = { ev with tag := (ev.tagGet c).1 } ∧
    (ev.valueGet c).2.1 = { ev with value := (ev.valueGet c).1 } ∧
    ev'.style = ev.styleGet ∧
    ev'.isPlainImplicit = ev.isPlainImplicitGet ∧
    ev'.isQuotedImplicit = ev.isQuotedImplicitGet ∧
    ev'.nativeEvent = ev.nativeEvent := by
  have hev := toStringGet_state c ev s ev' h
  subst hev
  exact ⟨anchorGet_state c ev, tagGet_state c ev, valueGet_state c ev,
    reads3_style c ev, reads3_plain c ev, reads3_quoted c ev, reads3_native c ev⟩

/-- C10 witness: the frame property at a concrete `ToString` call. -/
theorem accessor_frame_inst :
    (ev1.anchorGet codec0).2.1 = { ev1 with anchor := (ev1.anchorGet codec0).1 } ∧
    (ev1.tagGet codec0).2.1 = { ev1 with tag := (ev1.tagGet codec0).1 } ∧
    (ev1.valueGet codec0).2.1 = { ev1 with value := (ev1.valueGet codec0).1 } ∧
    ev1.style = ev1.styleGet ∧
    ev1.isPlainImplicit = ev1.isPlainImplicitGet ∧
    ev1.isQuotedImplicit = ev1.isQuotedImplicitGet ∧
    ev1.nativeEvent = ev1.nativeEvent :=
  accessor_frame codec0 ev1
    "ScalarEvent a ! x 1 plain_explicit quoted_explicit DoubleQuoted" ev1 (by decide)

end ScalarEvent

end YamlDotNetCore
